import Mathlib

/-!
Shallow embedding of the code-quality analysis core:
`app/core/analyzer.py` (orchestrator) and `app/rag/gemini_client.py`
(analysis client response parsing).

Python dicts with a known schema are modelled as structures whose fields
are `Option`-valued: `none` means the key is absent from the dict.
External collaborators (file system, chunker, the model, `json.loads`)
are parameters of the embedded functions.
-/

/-- One reported issue (`issues[...]` entries of the model response).
`none` on a field means the key is absent from the issue dict. -/
structure Issue where
  line_start : Option Int := none
  line_end : Option Int := none
  issue_type : Option String := none
  severity : Option String := none
  description : Option String := none
  suggested_fix : Option String := none
deriving DecidableEq, Repr

/-- A `Dict[str, Any]` result with the FileReport schema; `none` means the
key is absent. -/
structure ResultDict where
  file_name : Option String := none
  issues : Option (List Issue) := none
  summary : Option String := none
  production_ready : Option Bool := none
  warnings_count : Option Int := none
  error : Option String := none
  raw_response : Option String := none
deriving DecidableEq, Repr

/-- A chunk produced by `chunk_code` (only the fields the analyzer reads). -/
structure Chunk where
  code : String
  start_line : Int
deriving DecidableEq, Repr

/-- A Gemini response object: accessing `.text` either yields the response
text or raises (modelled as `Except`), as accessing the property can fail. -/
structure GenResponse where
  text : Except String String
deriving Repr

/-- `'\x7b'`, the opening curly brace character. -/
def lbrace : Char := Char.ofNat 123

/-- `'\x7d'`, the closing curly brace character. -/
def rbrace : Char := Char.ofNat 125

/-- Does `needle` occur at the head of the list? -/
def startsWithChars : List Char → List Char → Bool
  | [], _ => true
  | _ :: _, [] => false
  | a :: as, b :: bs => a = b && startsWithChars as bs

/-- Does `needle` occur anywhere in the list? -/
def hasSubChars (needle : List Char) : List Char → Bool
  | [] => startsWithChars needle []
  | c :: rest => startsWithChars needle (c :: rest) || hasSubChars needle rest

/-- Python's substring test `needle in hay`. -/
def strContains (hay needle : String) : Bool :=
  hasSubChars needle.data hay.data

/-- Index of the first character satisfying `p`. -/
def firstIdx (p : Char → Bool) : List Char → Option Nat
  | [] => none
  | c :: rest => if p c then some 0 else (firstIdx p rest).map (· + 1)

/-- Index of the last character satisfying `p`. -/
def lastIdx (p : Char → Bool) (cs : List Char) : Option Nat :=
  match firstIdx p cs.reverse with
  | none => none
  | some k => some (cs.length - 1 - k)

/-- `re.search(r'(\x7b[\s\S]*\x7d)', text)`: the greedy match spans from the
first opening brace to the last closing brace; it exists iff some closing
brace follows the first opening brace. Returns the matched group. -/
def extract_json (text : String) : Option String :=
  let cs := text.data
  match firstIdx (· = lbrace) cs, lastIdx (· = rbrace) cs with
  | some i, some j => if i < j then some (String.mk ((cs.take (j + 1)).drop i)) else none
  | _, _ => none

/-- The four `setdefault` calls after a successful `json.loads`:
fill `issues`, `summary`, `production_ready`, `warnings_count` when absent,
keeping every present field unchanged. -/
def set_defaults (r : ResultDict) : ResultDict :=
  { r with
    issues := some (r.issues.getD []),
    summary := some (r.summary.getD "Analysis completed."),
    production_ready := some (r.production_ready.getD false),
    warnings_count := some (r.warnings_count.getD ((r.issues.getD []).length : Int)) }

/-- `GeminiClient._parse_response`, with `json.loads` passed in as the
decoder (`none` models `json.JSONDecodeError`). -/
def parse_response (jsonDecode : String → Option ResultDict)
    (response : GenResponse) : ResultDict :=
  match response.text with
  | .error e =>
    { issues := some [], summary := some ("Error processing response: " ++ e),
      production_ready := some false, warnings_count := some 0, error := some e }
  | .ok text =>
    if text = "" ∨ strContains text "issues" = false then
      { issues := some [], summary := some "Analysis could not be completed.",
        production_ready := some false, warnings_count := some 0,
        error := some "Failed to parse response" }
    else
      match extract_json text with
      | some s =>
        match jsonDecode s with
        | some result => set_defaults result
        | none =>
          { issues := some [],
            summary := some "Analysis completed but response format was unexpected.",
            production_ready := some false, warnings_count := some 0,
            raw_response := some text }
      | none =>
        { issues := some [],
          summary := some "Analysis completed but response format was unexpected.",
          production_ready := some false, warnings_count := some 0,
          raw_response := some text }

/-- `GeminiClient.analyze_code`, given the model's response to the prompt:
it parses the response. -/
def analyze_code (jsonDecode : String → Option ResultDict)
    (model_response : GenResponse) : ResultDict :=
  parse_response jsonDecode model_response

/-- Python's `str.lower()` on the extension. -/
def str_lower (s : String) : String :=
  String.mk (s.data.map Char.toLower)

/-- The extension dispatch of `analyze_file` (lines 38-42): `.py` maps to
`python`, `.sql` to `sql`, anything else is unsupported. -/
def file_type_of (file_extension : String) : Option String :=
  if file_extension = ".py" then some "python"
  else if file_extension = ".sql" then some "sql"
  else none

/-- The in-place line-number adjustment of one issue (lines 79-80):
add the chunk's `start_line` to `line_start` and `line_end`, a missing
field read as 0. -/
def offset_issue (start_line : Int) (issue : Issue) : Issue :=
  { issue with
    line_start := some (start_line + issue.line_start.getD 0),
    line_end := some (start_line + issue.line_end.getD 0) }

/-- Adjustment of a whole chunk result (lines 78-80): every issue in
`chunk_result.get("issues", [])` is offset; a result without an `issues`
key is left without one. -/
def adjust_chunk_result (chunk : Chunk) (r : ResultDict) : ResultDict :=
  { r with issues := r.issues.map (List.map (offset_issue chunk.start_line)) }

/-- The initial `combined_result` dict (lines 85-91). -/
def init_combined (file_name : String) : ResultDict :=
  { file_name := some file_name, issues := some [], summary := some "",
    production_ready := some true, warnings_count := some 0 }

/-- One iteration of the combine loop (lines 93-98). -/
def merge_step (acc r : ResultDict) : ResultDict :=
  { acc with
    issues := some (acc.issues.getD [] ++ r.issues.getD []),
    summary := some (acc.summary.getD "" ++ r.summary.getD "" ++ "\n"),
    production_ready :=
      if r.production_ready.getD true = false then some false
      else acc.production_ready,
    warnings_count := some (acc.warnings_count.getD 0 + r.warnings_count.getD 0) }

/-- The combine loop of `analyze_file` (lines 85-100). -/
def combine_results (file_name : String) (rs : List ResultDict) : ResultDict :=
  rs.foldl merge_step (init_combined file_name)

/-- The chunk display name `f"{file_name} (chunk {i+1}/{n})"`. -/
def chunk_display_name (file_name : String) (i n : Nat) : String :=
  file_name ++ " (chunk " ++ toString (i + 1) ++ "/" ++ toString n ++ ")"

/-- `CodeAnalyzer.analyze_file`. Collaborators are parameters: `read_file`
(an `Except` models a raised I/O error), `chunk_code`, and the client call
`analyze_fn code file_type display_name`. Returns the report together with
the number of model calls made. -/
def analyze_file (file_name raw_extension : String)
    (read_file : Except String String)
    (chunk_code : String → String → List Chunk)
    (analyze_fn : String → String → String → ResultDict) : ResultDict × Nat :=
  let file_extension := str_lower raw_extension
  match file_type_of file_extension with
  | none =>
    ({ error := some ("Unsupported file type: " ++ file_extension),
       file_name := some file_name, issues := some [] }, 0)
  | some file_type =>
    match read_file with
    | .error e =>
      ({ error := some ("Error reading file: " ++ e),
         file_name := some file_name, issues := some [] }, 0)
    | .ok content =>
      let chunks := chunk_code content file_type
      if chunks.length = 1 then
        ({ analyze_fn content file_type file_name with file_name := some file_name }, 1)
      else
        let n := chunks.length
        let chunk_results := chunks.enum.map (fun ic =>
          adjust_chunk_result ic.2
            (analyze_fn ic.2.code file_type (chunk_display_name file_name ic.1 n)))
        (combine_results file_name chunk_results, n)

/-- Concatenation of a list of strings, used to state merge specifications. -/
def concat_all : List String → String
  | [] => ""
  | s :: rest => s ++ concat_all rest

/-! ## Helper lemmas about the combine loop -/

theorem foldl_merge_issues (rs : List ResultDict) (acc : ResultDict) (l : List Issue)
    (h : acc.issues = some l) :
    (rs.foldl merge_step acc).issues
      = some (l ++ (rs.map (fun r => r.issues.getD [])).flatten) := by
  induction rs generalizing acc l with
  | nil => simp [h]
  | cons r rest ih =>
    have hstep : (merge_step acc r).issues = some (l ++ r.issues.getD []) := by
      simp [merge_step, h]
    rw [List.foldl_cons, ih _ _ hstep, List.map_cons, List.flatten_cons,
      List.append_assoc]

theorem foldl_merge_summary (rs : List ResultDict) (acc : ResultDict) (s : String)
    (h : acc.summary = some s) :
    (rs.foldl merge_step acc).summary
      = some (s ++ concat_all (rs.map (fun r => r.summary.getD "" ++ "\n"))) := by
  induction rs generalizing acc s with
  | nil => simp [h, concat_all, String.append_empty]
  | cons r rest ih =>
    have hstep : (merge_step acc r).summary
        = some (s ++ (r.summary.getD "" ++ "\n")) := by
      simp [merge_step, h, String.append_assoc]
    rw [List.foldl_cons, ih _ _ hstep, List.map_cons]
    simp [concat_all, String.append_assoc]

theorem foldl_merge_production_ready (rs : List ResultDict) (acc : ResultDict) :
    (rs.foldl merge_step acc).production_ready
      = if rs.all (fun r => r.production_ready.getD true) then acc.production_ready
        else some false := by
  induction rs generalizing acc with
  | nil => simp
  | cons r rest ih =>
    rw [List.foldl_cons, ih]
    by_cases hr : r.production_ready.getD true = true
    · have hstep : (merge_step acc r).production_ready = acc.production_ready := by
        simp [merge_step, hr]
      simp [List.all_cons, hr, hstep]
    · have hstep : (merge_step acc r).production_ready = some false := by
        simp only [Bool.not_eq_true] at hr
        simp [merge_step, hr]
      simp [List.all_cons, hr, hstep]

theorem foldl_merge_warnings (rs : List ResultDict) (acc : ResultDict) (w : Int)
    (h : acc.warnings_count = some w) :
    (rs.foldl merge_step acc).warnings_count
      = some (w + (rs.map (fun r => r.warnings_count.getD 0)).sum) := by
  induction rs generalizing acc w with
  | nil => simp [h]
  | cons r rest ih =>
    have hstep : (merge_step acc r).warnings_count
        = some (w + r.warnings_count.getD 0) := by
      simp [merge_step, h]
    rw [List.foldl_cons, ih _ _ hstep, List.map_cons, List.sum_cons]
    simp [add_assoc]

theorem foldl_merge_file_name (rs : List ResultDict) (acc : ResultDict) :
    (rs.foldl merge_step acc).file_name = acc.file_name := by
  induction rs generalizing acc with
  | nil => rfl
  | cons r rest ih => rw [List.foldl_cons, ih]; simp [merge_step]

theorem foldl_merge_error (rs : List ResultDict) (acc : ResultDict) :
    (rs.foldl merge_step acc).error = acc.error := by
  induction rs generalizing acc with
  | nil => rfl
  | cons r rest ih => rw [List.foldl_cons, ih]; simp [merge_step]

theorem foldl_merge_raw_response (rs : List ResultDict) (acc : ResultDict) :
    (rs.foldl merge_step acc).raw_response = acc.raw_response := by
  induction rs generalizing acc with
  | nil => rfl
  | cons r rest ih => rw [List.foldl_cons, ih]; simp [merge_step]

theorem combine_results_issues (fn : String) (rs : List ResultDict) :
    (combine_results fn rs).issues
      = some ((rs.map (fun r => r.issues.getD [])).flatten) := by
  simpa [combine_results] using foldl_merge_issues rs (init_combined fn) [] rfl

theorem combine_results_summary (fn : String) (rs : List ResultDict) :
    (combine_results fn rs).summary
      = some (concat_all (rs.map (fun r => r.summary.getD "" ++ "\n"))) := by
  simpa [combine_results, String.empty_append] using
    foldl_merge_summary rs (init_combined fn) "" rfl

theorem combine_results_production_ready (fn : String) (rs : List ResultDict) :
    (combine_results fn rs).production_ready
      = some (rs.all (fun r => r.production_ready.getD true)) := by
  rw [combine_results, foldl_merge_production_ready]
  by_cases h : rs.all (fun r => r.production_ready.getD true) = true
  · simp [h, init_combined]
  · simp only [Bool.not_eq_true] at h
    simp [h]

theorem combine_results_warnings (fn : String) (rs : List ResultDict) :
    (combine_results fn rs).warnings_count
      = some ((rs.map (fun r => r.warnings_count.getD 0)).sum) := by
  simpa [combine_results] using foldl_merge_warnings rs (init_combined fn) 0 rfl

theorem getD_map_list (o : Option (List Issue)) (g : Issue → Issue) :
    (o.map (List.map g)).getD [] = (o.getD []).map g := by
  cases o <;> rfl

theorem getD_true_eq_false_iff (o : Option Bool) : o.getD true = false ↔ o = some false := by
  cases o <;> simp

theorem append_left_ne_empty (s t : String) (hs : s ≠ "") : s ++ t ≠ "" := by
  intro hc
  apply hs
  have hd := congrArg String.data hc
  rw [String.data_append] at hd
  have hnil : s.data = [] := (List.append_eq_nil.mp hd).1
  cases s with
  | mk data => cases hnil; rfl

/-! ## Path lemmas for `analyze_file` -/

theorem analyze_file_unsupported_fst (fn ext : String) (rd : Except String String)
    (ck : String → String → List Chunk) (an : String → String → String → ResultDict)
    (hft : file_type_of (str_lower ext) = none) :
    (analyze_file fn ext rd ck an).1
      = { error := some ("Unsupported file type: " ++ str_lower ext),
          file_name := some fn, issues := some [] } := by
  simp [analyze_file, hft]

theorem analyze_file_unsupported_snd (fn ext : String) (rd : Except String String)
    (ck : String → String → List Chunk) (an : String → String → String → ResultDict)
    (hft : file_type_of (str_lower ext) = none) :
    (analyze_file fn ext rd ck an).2 = 0 := by
  simp [analyze_file, hft]

theorem analyze_file_read_error_fst (fn ext ft e : String)
    (rd : Except String String)
    (ck : String → String → List Chunk) (an : String → String → String → ResultDict)
    (hft : file_type_of (str_lower ext) = some ft) (he : rd = Except.error e) :
    (analyze_file fn ext rd ck an).1
      = { error := some ("Error reading file: " ++ e),
          file_name := some fn, issues := some [] } := by
  subst he
  simp [analyze_file, hft]

theorem analyze_file_read_error_snd (fn ext ft e : String)
    (rd : Except String String)
    (ck : String → String → List Chunk) (an : String → String → String → ResultDict)
    (hft : file_type_of (str_lower ext) = some ft) (he : rd = Except.error e) :
    (analyze_file fn ext rd ck an).2 = 0 := by
  subst he
  simp [analyze_file, hft]

theorem analyze_file_single_fst (fn ext ft content : String)
    (rd : Except String String)
    (ck : String → String → List Chunk) (an : String → String → String → ResultDict)
    (hft : file_type_of (str_lower ext) = some ft) (hread : rd = Except.ok content)
    (hlen : (ck content ft).length = 1) :
    (analyze_file fn ext rd ck an).1
      = { an content ft fn with file_name := some fn } := by
  subst hread
  simp [analyze_file, hft, hlen]

theorem analyze_file_multi_fst (fn ext ft content : String)
    (rd : Except String String)
    (ck : String → String → List Chunk) (an : String → String → String → ResultDict)
    (hft : file_type_of (str_lower ext) = some ft) (hread : rd = Except.ok content)
    (hlen : ¬ (ck content ft).length = 1) :
    (analyze_file fn ext rd ck an).1
      = combine_results fn ((ck content ft).enum.map (fun ic =>
          adjust_chunk_result ic.2
            (an ic.2.code ft (chunk_display_name fn ic.1 (ck content ft).length)))) := by
  subst hread
  simp [analyze_file, hft, hlen]

theorem parse_response_wellformed (jsonDecode : String → Option ResultDict)
    (resp : GenResponse) :
    (parse_response jsonDecode resp).issues.isSome
      ∧ (parse_response jsonDecode resp).summary.isSome
      ∧ (parse_response jsonDecode resp).production_ready.isSome
      ∧ (parse_response jsonDecode resp).warnings_count.isSome := by
  rcases resp with ⟨t⟩
  cases t with
  | error e => simp [parse_response]
  | ok text =>
    by_cases hemp : text = "" ∨ strContains text "issues" = false
    · simp [parse_response, hemp]
    · simp only [parse_response]
      rw [if_neg hemp]
      cases hj : extract_json text with
      | none => simp
      | some s =>
        cases hd : jsonDecode s with
        | none => simp [hd]
        | some r => simp [hd, set_defaults]

/-! ## Claim theorems: the Analysis Client -/

/-- C3: for every possible model response — including one whose text access
fails internally — `analyze_code` returns a well-formed result dict with
`issues`, `summary`, `production_ready` and `warnings_count` all present,
and an internal failure's message is captured in `summary` and `error`;
being a total function, it never raises into the orchestrator. -/
theorem analyze_code_never_raises
    (jsonDecode : String → Option ResultDict) (resp : GenResponse) :
    ((analyze_code jsonDecode resp).issues.isSome
        ∧ (analyze_code jsonDecode resp).summary.isSome
        ∧ (analyze_code jsonDecode resp).production_ready.isSome
        ∧ (analyze_code jsonDecode resp).warnings_count.isSome)
      ∧ (∀ e, resp.text = Except.error e →
          (analyze_code jsonDecode resp).summary
              = some ("Error processing response: " ++ e)
            ∧ (analyze_code jsonDecode resp).error = some e) := by
  refine ⟨parse_response_wellformed jsonDecode resp, ?_⟩
  intro e he
  rcases resp with ⟨t⟩
  have ht : t = Except.error e := he
  subst ht
  exact ⟨rfl, rfl⟩

theorem analyze_code_never_raises_witness :
    (analyze_code (fun _ => none) ⟨Except.error "boom"⟩).summary
        = some ("Error processing response: " ++ "boom")
      ∧ (analyze_code (fun _ => none) ⟨Except.error "boom"⟩).error = some "boom" :=
  (analyze_code_never_raises (fun _ => none) ⟨Except.error "boom"⟩).2 "boom" rfl

/-- C7: a model response whose text is empty or lacks the substring
"issues" yields exactly the default failure-shaped result. -/
theorem parse_default_failure
    (jsonDecode : String → Option ResultDict) (resp : GenResponse) (t : String)
    (htext : resp.text = Except.ok t)
    (h : t = "" ∨ strContains t "issues" = false) :
    parse_response jsonDecode resp
      = { issues := some [], summary := some "Analysis could not be completed.",
          production_ready := some false, warnings_count := some 0,
          error := some "Failed to parse response" } := by
  rcases resp with ⟨tt⟩
  have ht : tt = Except.ok t := htext
  subst ht
  simp only [parse_response]
  rw [if_pos h]

theorem parse_default_failure_witness :
    parse_response (fun _ => none) ⟨Except.ok ""⟩
      = { issues := some [], summary := some "Analysis could not be completed.",
          production_ready := some false, warnings_count := some 0,
          error := some "Failed to parse response" } :=
  parse_default_failure (fun _ => none) ⟨Except.ok ""⟩ "" rfl (Or.inl rfl)

/-- A decoder modelling `json.loads` on the input `"\x7b\x7d"`: the empty
JSON object decodes to a dict with none of the report's fields. -/
def decode_empty_object : String → Option ResultDict :=
  fun s => if s = "\x7b\x7d" then some {} else none

/-- C8, as stated, is false: the response text `"\x7b\x7d"` has a
first-brace-to-last-brace substring that decodes successfully as JSON
(the empty object), yet the parser returns the default failure result —
the text does not contain "issues", so the emptiness gate of rule 1 fires
before any decoding — not the decoded object with defaults filled. -/
theorem parse_decoded_counterexample :
    extract_json "\x7b\x7d" = some "\x7b\x7d"
      ∧ decode_empty_object "\x7b\x7d" = some {}
      ∧ parse_response decode_empty_object ⟨Except.ok "\x7b\x7d"⟩
          = { issues := some [], summary := some "Analysis could not be completed.",
              production_ready := some false, warnings_count := some 0,
              error := some "Failed to parse response" }
      ∧ parse_response decode_empty_object ⟨Except.ok "\x7b\x7d"⟩
          ≠ { issues := some [], summary := some "Analysis completed.",
              production_ready := some false, warnings_count := some 0 } := by
  refine ⟨by decide, by decide, by decide, by decide⟩

/-- C8 (amended): for every model response that is non-empty, contains
"issues", and whose first-brace-to-last-brace substring decodes
successfully as JSON, the parser returns the decoded object with missing
required fields filled by the defaults `issues = []`,
`summary = "Analysis completed."`, `production_ready = false` and
`warnings_count = length of the decoded issues`, while every field present
in the decoded data is kept unchanged. -/
theorem parse_decoded_defaults
    (jsonDecode : String → Option ResultDict) (resp : GenResponse)
    (t s : String) (obj : ResultDict)
    (htext : resp.text = Except.ok t)
    (ht1 : ¬ t = "") (ht2 : strContains t "issues" = true)
    (hext : extract_json t = some s) (hdec : jsonDecode s = some obj) :
    parse_response jsonDecode resp
      = { obj with
          issues := some (obj.issues.getD []),
          summary := some (obj.summary.getD "Analysis completed."),
          production_ready := some (obj.production_ready.getD false),
          warnings_count :=
            some (obj.warnings_count.getD ((obj.issues.getD []).length : Int)) } := by
  rcases resp with ⟨tt⟩
  have ht : tt = Except.ok t := htext
  subst ht
  have hcond : ¬ (t = "" ∨ strContains t "issues" = false) := by simp [ht1, ht2]
  simp only [parse_response]
  rw [if_neg hcond]
  simp [hext, hdec, set_defaults]

theorem parse_decoded_defaults_witness :
    parse_response decode_empty_object ⟨Except.ok "issues \x7b\x7d"⟩
      = { issues := some [], summary := some "Analysis completed.",
          production_ready := some false, warnings_count := some 0 } := by
  have h := parse_decoded_defaults decode_empty_object ⟨Except.ok "issues \x7b\x7d"⟩
    "issues \x7b\x7d" "\x7b\x7d" {} rfl (by decide) (by decide) (by decide) (by decide)
  simpa using h

/-- C9: a non-empty model response that contains "issues" but has no
decodable JSON substring — no brace-delimited match at all, or a match
that is malformed JSON — yields, without raising, the generic
"unexpected format" result with the raw text attached for diagnostics. -/
theorem parse_unexpected_format
    (jsonDecode : String → Option ResultDict) (resp : GenResponse) (t : String)
    (htext : resp.text = Except.ok t)
    (ht1 : ¬ t = "") (ht2 : strContains t "issues" = true)
    (h : extract_json t = none
        ∨ ∃ s, extract_json t = some s ∧ jsonDecode s = none) :
    parse_response jsonDecode resp
      = { issues := some [],
          summary := some "Analysis completed but response format was unexpected.",
          production_ready := some false, warnings_count := some 0,
          raw_response := some t } := by
  rcases resp with ⟨tt⟩
  have ht : tt = Except.ok t := htext
  subst ht
  have hcond : ¬ (t = "" ∨ strContains t "issues" = false) := by simp [ht1, ht2]
  simp only [parse_response]
  rw [if_neg hcond]
  rcases h with hnone | ⟨s, hs, hd⟩
  · simp [hnone]
  · simp [hs, hd]

theorem parse_unexpected_format_witness :
    parse_response (fun _ => none) ⟨Except.ok "issues"⟩
      = { issues := some [],
          summary := some "Analysis completed but response format was unexpected.",
          production_ready := some false, warnings_count := some 0,
          raw_response := some "issues" } :=
  parse_unexpected_format (fun _ => none) ⟨Except.ok "issues"⟩ "issues" rfl
    (by decide) (by decide) (Or.inl (by decide))

/-! ## Claim theorems: the orchestrator -/

/-- C1: in every multi-chunk analysis (n ≥ 2 chunks), each issue of the
merged report carries its chunk-reported `line_start` and `line_end`
shifted by that chunk's `start_line` (a missing field read as 0), and the
merged issue sequence is ordered by chunk index, then by within-chunk
order. -/
theorem merged_issues_offset_and_order
    (file_name raw_extension content file_type : String)
    (read_file : Except String String)
    (chunk_code : String → String → List Chunk)
    (analyze_fn : String → String → String → ResultDict)
    (hft : file_type_of (str_lower raw_extension) = some file_type)
    (hread : read_file = Except.ok content)
    (hn : 2 ≤ (chunk_code content file_type).length) :
    (analyze_file file_name raw_extension read_file chunk_code analyze_fn).1.issues
      = some (((chunk_code content file_type).enum.map (fun ic =>
          ((analyze_fn ic.2.code file_type
              (chunk_display_name file_name ic.1
                (chunk_code content file_type).length)).issues.getD []).map
            (fun issue =>
              { issue with
                line_start := some (ic.2.start_line + issue.line_start.getD 0),
                line_end := some (ic.2.start_line + issue.line_end.getD 0) }))).flatten) := by
  have hne : ¬ (chunk_code content file_type).length = 1 := by omega
  rw [analyze_file_multi_fst file_name raw_extension file_type content read_file
    chunk_code analyze_fn hft hread hne, combine_results_issues]
  congr 1
  rw [List.map_map]
  apply congrArg
  apply List.map_congr_left
  intro ic _
  simp [Function.comp, adjust_chunk_result, getD_map_list, offset_issue]

theorem merged_issues_offset_and_order_witness :
    (analyze_file "a.py" ".py" (Except.ok "code")
        (fun _ _ => [⟨"c1", 0⟩, ⟨"c2", 10⟩])
        (fun c _ _ =>
          if c = "c1"
          then { issues := some [{ line_start := some 1, line_end := some 2 }] }
          else { issues := some [{ line_start := some 3 }] })).1.issues
      = some [{ line_start := some 1, line_end := some 2 },
              { line_start := some 13, line_end := some 10 }] := by
  rw [merged_issues_offset_and_order "a.py" ".py" "code" "python" (Except.ok "code")
    (fun _ _ => [⟨"c1", 0⟩, ⟨"c2", 10⟩])
    (fun c _ _ =>
      if c = "c1"
      then { issues := some [{ line_start := some 1, line_end := some 2 }] }
      else { issues := some [{ line_start := some 3 }] })
    (by decide) rfl (by decide)]
  decide

/-- C2: for an unsupported extension, or a file whose read raises, the
report has a non-empty `error` and empty `issues`, and zero model calls
are made; `analyze_file` is total, so no exception reaches the caller. -/
theorem input_errors_no_model_call
    (file_name raw_extension : String) (read_file : Except String String)
    (chunk_code : String → String → List Chunk)
    (analyze_fn : String → String → String → ResultDict)
    (h : file_type_of (str_lower raw_extension) = none
        ∨ ∃ e, read_file = Except.error e) :
    (∃ msg, (analyze_file file_name raw_extension read_file chunk_code analyze_fn).1.error
          = some msg ∧ msg ≠ "")
      ∧ (analyze_file file_name raw_extension read_file chunk_code analyze_fn).1.issues
          = some []
      ∧ (analyze_file file_name raw_extension read_file chunk_code analyze_fn).2 = 0 := by
  by_cases hft : file_type_of (str_lower raw_extension) = none
  · rw [analyze_file_unsupported_fst file_name raw_extension read_file
      chunk_code analyze_fn hft,
      analyze_file_unsupported_snd file_name raw_extension read_file
      chunk_code analyze_fn hft]
    exact ⟨⟨_, rfl, append_left_ne_empty _ _ (by decide)⟩, rfl, rfl⟩
  · obtain ⟨ft, hft2⟩ : ∃ ft, file_type_of (str_lower raw_extension) = some ft := by
      cases hx : file_type_of (str_lower raw_extension) with
      | none => exact absurd hx hft
      | some ft => exact ⟨ft, rfl⟩
    rcases h with h1 | ⟨e, he⟩
    · exact absurd h1 hft
    · rw [analyze_file_read_error_fst file_name raw_extension ft e read_file
        chunk_code analyze_fn hft2 he,
        analyze_file_read_error_snd file_name raw_extension ft e read_file
        chunk_code analyze_fn hft2 he]
      exact ⟨⟨_, rfl, append_left_ne_empty _ _ (by decide)⟩, rfl, rfl⟩

theorem input_errors_no_model_call_witness :
    (∃ msg, (analyze_file "a.txt" ".txt" (Except.ok "x")
          (fun _ _ => []) (fun _ _ _ => ({} : ResultDict))).1.error
        = some msg ∧ msg ≠ "")
      ∧ (analyze_file "a.txt" ".txt" (Except.ok "x")
          (fun _ _ => []) (fun _ _ _ => ({} : ResultDict))).1.issues = some []
      ∧ (analyze_file "a.txt" ".txt" (Except.ok "x")
          (fun _ _ => []) (fun _ _ _ => ({} : ResultDict))).2 = 0 :=
  input_errors_no_model_call "a.txt" ".txt" (Except.ok "x")
    (fun _ _ => []) (fun _ _ _ => ({} : ResultDict)) (Or.inl (by decide))

/-- C4: the merged `production_ready` is the logical AND of the chunk
results' values, a missing field read as `true`; equivalently the merged
value is `false` iff at least one chunk result carries
`production_ready = false`. -/
theorem merged_production_ready_iff
    (fn : String) (rs : List ResultDict) (h : 2 ≤ rs.length) :
    (combine_results fn rs).production_ready
        = some (rs.all (fun r => r.production_ready.getD true))
      ∧ ((combine_results fn rs).production_ready = some false
          ↔ ∃ r ∈ rs, r.production_ready = some false) := by
  refine ⟨combine_results_production_ready fn rs, ?_⟩
  rw [combine_results_production_ready, Option.some_inj, List.all_eq_false]
  constructor
  · rintro ⟨r, hr, hp⟩
    exact ⟨r, hr, (getD_true_eq_false_iff _).mp (by simpa using hp)⟩
  · rintro ⟨r, hr, hp⟩
    exact ⟨r, hr, by simp [hp]⟩

theorem merged_production_ready_iff_witness :
    ((combine_results "f" [{ production_ready := some false },
          { production_ready := some true }]).production_ready
        = some ([{ production_ready := some false },
            ({ production_ready := some true } : ResultDict)].all
              (fun r => r.production_ready.getD true))
      ∧ ((combine_results "f" [{ production_ready := some false },
            { production_ready := some true }]).production_ready = some false
          ↔ ∃ r ∈ [{ production_ready := some false },
              ({ production_ready := some true } : ResultDict)],
              r.production_ready = some false)) :=
  merged_production_ready_iff "f"
    [{ production_ready := some false }, { production_ready := some true }]
    (by decide)

/-- C5: the merged `warnings_count` is the sum of the chunk results'
`warnings_count` values, a missing field contributing 0. -/
theorem merged_warnings_count_sum
    (fn : String) (rs : List ResultDict) (h : 2 ≤ rs.length) :
    (combine_results fn rs).warnings_count
      = some ((rs.map (fun r => r.warnings_count.getD 0)).sum) :=
  combine_results_warnings fn rs

theorem merged_warnings_count_sum_witness :
    (combine_results "f" [{ warnings_count := some 3 },
        ({} : ResultDict)]).warnings_count
      = some (([{ warnings_count := some 3 }, ({} : ResultDict)].map
          (fun r => r.warnings_count.getD 0)).sum) :=
  merged_warnings_count_sum "f" [{ warnings_count := some 3 }, {}] (by decide)

/-- C6, as stated, is false: with chunk summaries "a" and "b" the merged
summary is "a\nb\n" — the loop appends a line break after every chunk
summary, including the last — not the "a\nb" that joining with a single
line break and no trailing break would give. -/
theorem merged_summary_counterexample :
    (combine_results "f" [{ summary := some "a" },
          { summary := some "b" }]).summary = some "a\nb\n"
      ∧ (combine_results "f" [{ summary := some "a" },
          { summary := some "b" }]).summary
        ≠ some (String.intercalate "\n" ["a", "b"]) := by
  refine ⟨by decide, by decide⟩

/-- C6 (amended): the merged `summary` is the chunk summaries concatenated
in chunk order, each one followed by a line break — including a trailing
line break after the last chunk's summary. -/
theorem merged_summary_concat
    (fn : String) (rs : List ResultDict) (h : 2 ≤ rs.length) :
    (combine_results fn rs).summary
      = some (concat_all (rs.map (fun r => r.summary.getD "" ++ "\n"))) :=
  combine_results_summary fn rs

theorem merged_summary_concat_witness :
    (combine_results "f" [{ summary := some "a" },
        { summary := some "b" }]).summary
      = some (concat_all ([{ summary := some "a" },
          ({ summary := some "b" } : ResultDict)].map
            (fun r => r.summary.getD "" ++ "\n"))) :=
  merged_summary_concat "f" [{ summary := some "a" }, { summary := some "b" }]
    (by decide)

/-- C10: an input-error report (unsupported extension or failed read)
carries exactly the keys `error`, `file_name` and `issues` — `summary`,
`production_ready`, `warnings_count` and `raw_response` are absent —
while every report from the successful paths (single-chunk pass-through of
the client's parse result, or a multi-chunk merge) has `summary`,
`production_ready` and `warnings_count` present. -/
theorem report_field_sets
    (file_name raw_extension : String) (read_file : Except String String)
    (chunk_code : String → String → List Chunk)
    (analyze_fn : String → String → String → ResultDict) :
    ((file_type_of (str_lower raw_extension) = none
        ∨ ∃ e, read_file = Except.error e) →
      ((analyze_file file_name raw_extension read_file chunk_code analyze_fn).1.error.isSome
        ∧ (analyze_file file_name raw_extension read_file chunk_code analyze_fn).1.file_name
            = some file_name
        ∧ (analyze_file file_name raw_extension read_file chunk_code analyze_fn).1.issues
            = some []
        ∧ (analyze_file file_name raw_extension read_file chunk_code analyze_fn).1.summary
            = none
        ∧ (analyze_file file_name raw_extension read_file chunk_code
            analyze_fn).1.production_ready = none
        ∧ (analyze_file file_name raw_extension read_file chunk_code
            analyze_fn).1.warnings_count = none
        ∧ (analyze_file file_name raw_extension read_file chunk_code
            analyze_fn).1.raw_response = none))
    ∧ (∀ (jsonDecode : String → Option ResultDict)
          (model : String → String → String → GenResponse) (file_type content : String),
        file_type_of (str_lower raw_extension) = some file_type →
        read_file = Except.ok content →
        ((analyze_file file_name raw_extension read_file chunk_code
            (fun c ft dn => analyze_code jsonDecode (model c ft dn))).1.summary.isSome
          ∧ (analyze_file file_name raw_extension read_file chunk_code
              (fun c ft dn =>
                analyze_code jsonDecode (model c ft dn))).1.production_ready.isSome
          ∧ (analyze_file file_name raw_extension read_file chunk_code
              (fun c ft dn =>
                analyze_code jsonDecode (model c ft dn))).1.warnings_count.isSome)) := by
  constructor
  · intro h
    by_cases hft : file_type_of (str_lower raw_extension) = none
    · rw [analyze_file_unsupported_fst file_name raw_extension read_file
        chunk_code analyze_fn hft]
      exact ⟨rfl, rfl, rfl, rfl, rfl, rfl, rfl⟩
    · obtain ⟨ft, hft2⟩ : ∃ ft, file_type_of (str_lower raw_extension) = some ft := by
        cases hx : file_type_of (str_lower raw_extension) with
        | none => exact absurd hx hft
        | some ft => exact ⟨ft, rfl⟩
      rcases h with h1 | ⟨e, he⟩
      · exact absurd h1 hft
      · rw [analyze_file_read_error_fst file_name raw_extension ft e read_file
          chunk_code analyze_fn hft2 he]
        exact ⟨rfl, rfl, rfl, rfl, rfl, rfl, rfl⟩
  · intro jsonDecode model file_type content hft hread
    by_cases hlen : (chunk_code content file_type).length = 1
    · rw [analyze_file_single_fst file_name raw_extension file_type content read_file
        chunk_code (fun c ft dn => analyze_code jsonDecode (model c ft dn))
        hft hread hlen]
      obtain ⟨_, h2, h3, h4⟩ :=
        parse_response_wellformed jsonDecode (model content file_type file_name)
      exact ⟨h2, h3, h4⟩
    · rw [analyze_file_multi_fst file_name raw_extension file_type content read_file
        chunk_code (fun c ft dn => analyze_code jsonDecode (model c ft dn))
        hft hread hlen]
      refine ⟨?_, ?_, ?_⟩
      · rw [combine_results_summary]; rfl
      · rw [combine_results_production_ready]; rfl
      · rw [combine_results_warnings]; rfl

theorem report_field_sets_witness :
    ((analyze_file "a.txt" ".txt" (Except.ok "x") (fun _ _ => [])
          (fun _ _ _ => ({} : ResultDict))).1.error.isSome
        ∧ (analyze_file "a.txt" ".txt" (Except.ok "x") (fun _ _ => [])
            (fun _ _ _ => ({} : ResultDict))).1.file_name = some "a.txt"
        ∧ (analyze_file "a.txt" ".txt" (Except.ok "x") (fun _ _ => [])
            (fun _ _ _ => ({} : ResultDict))).1.issues = some []
        ∧ (analyze_file "a.txt" ".txt" (Except.ok "x") (fun _ _ => [])
            (fun _ _ _ => ({} : ResultDict))).1.summary = none
        ∧ (analyze_file "a.txt" ".txt" (Except.ok "x") (fun _ _ => [])
            (fun _ _ _ => ({} : ResultDict))).1.production_ready = none
        ∧ (analyze_file "a.txt" ".txt" (Except.ok "x") (fun _ _ => [])
            (fun _ _ _ => ({} : ResultDict))).1.warnings_count = none
        ∧ (analyze_file "a.txt" ".txt" (Except.ok "x") (fun _ _ => [])
            (fun _ _ _ => ({} : ResultDict))).1.raw_response = none)
      ∧ ((analyze_file "b.py" ".py" (Except.ok "x") (fun _ _ => [⟨"c", 0⟩])
            (fun c ft dn => analyze_code (fun _ => none)
              ((fun _ _ _ => (⟨Except.ok ""⟩ : GenResponse)) c ft dn))).1.summary.isSome
          ∧ (analyze_file "b.py" ".py" (Except.ok "x") (fun _ _ => [⟨"c", 0⟩])
              (fun c ft dn => analyze_code (fun _ => none)
                ((fun _ _ _ =>
                  (⟨Except.ok ""⟩ : GenResponse)) c ft dn))).1.production_ready.isSome
          ∧ (analyze_file "b.py" ".py" (Except.ok "x") (fun _ _ => [⟨"c", 0⟩])
              (fun c ft dn => analyze_code (fun _ => none)
                ((fun _ _ _ =>
                  (⟨Except.ok ""⟩ : GenResponse)) c ft dn))).1.warnings_count.isSome) :=
  ⟨(report_field_sets "a.txt" ".txt" (Except.ok "x") (fun _ _ => [])
      (fun _ _ _ => ({} : ResultDict))).1 (Or.inl (by decide)),
   (report_field_sets "b.py" ".py" (Except.ok "x") (fun _ _ => [⟨"c", 0⟩])
      (fun _ _ _ => ({} : ResultDict))).2 (fun _ => none)
      (fun _ _ _ => ⟨Except.ok ""⟩) "python" "x" (by decide) rfl⟩
